import Mathlib

/-!
Shallow embedding of the sealos account namespace controller
(`controllers/account/controllers/namespace_controller.go`).

The controller's interactions with the cluster are modelled as pure
functions over an explicit execution state: the cluster contents (pods,
resource quotas, the target namespace's annotations), a schedule of
injected API faults, a schedule of watch-event streams, and a trace of
the API actions issued.  Each Kubernetes client call appends its action
to the trace, consumes one fault flag (an empty schedule means no
faults), and then performs its semantic step; fallible calls return
`Except ApiError`.
-/

set_option maxHeartbeats 1000000

/-! ## Association-list operations (Go `map[string]string`) -/

def lookupA : List (String × String) → String → Option String
  | [], _ => none
  | (k1, v1) :: rest, k => if k1 == k then some v1 else lookupA rest k

def insertA : List (String × String) → String → String → List (String × String)
  | [], k, v => [(k, v)]
  | (k1, v1) :: rest, k, v =>
    if k1 == k then (k, v) :: rest else (k1, v1) :: insertA rest k v

def eraseA : List (String × String) → String → List (String × String)
  | [], _ => []
  | (k1, v1) :: rest, k =>
    if k1 == k then eraseA rest k else (k1, v1) :: eraseA rest k

/-! ## Constants

The constants below come from `github.com/labring/sealos/controllers/account/api/v1`,
which is not part of the sources at hand; their values are modelled from
the spec (the exact strings are irrelevant, only that the three status
values are distinct and that the reserved scheduler designator differs
from ordinary designators such as `"default"` and `""`). -/

/-- Modelled from the spec: the controller's reserved scheduler designator
(`v1.DebtSchedulerName` of the missing `api/v1` package). -/
def DebtSchedulerName : String := "sealos-suspend-scheduler"

/-- Modelled from the spec: the previous-scheduler annotation key
(`v1.PreviousSchedulerName` of the missing `api/v1` package). -/
def PreviousSchedulerName : String := "previous-scheduler-name"

/-- Modelled from the spec: the lifecycle phase marking a parked pod
(`v1.PodPhaseSuspended` of the missing `api/v1` package). -/
def PodPhaseSuspended : String := "Suspended"

/-- Modelled from the spec: the namespace debt-status annotation key
(`v1.DebtNamespaceAnnoStatusKey` of the missing `api/v1` package). -/
def DebtNamespaceAnnoStatusKey : String := "debt.sealos/status"

/-- Modelled from the spec: `v1.NormalDebtNamespaceAnnoStatus`. -/
def NormalDebtNamespaceAnnoStatus : String := "Normal"

/-- Modelled from the spec: `v1.SuspendDebtNamespaceAnnoStatus`. -/
def SuspendDebtNamespaceAnnoStatus : String := "SuspendRequested"

/-- Modelled from the spec: `v1.ResumeDebtNamespaceAnnoStatus`. -/
def ResumeDebtNamespaceAnnoStatus : String := "ResumeRequested"

/-- `DebtLimit0Name` from the source file. -/
def DebtLimit0Name : String := "debt-limit0"

/-! ## Data model -/

structure ObjectMeta where
  name : String
  nspace : String
  resourceVersion : String
  ownerReferences : List String
  annots : List (String × String)
  deriving Repr, DecidableEq

structure PodSpec where
  schedulerName : String
  nodeName : String
  deriving Repr, DecidableEq

structure PodStatus where
  phase : String
  deriving Repr, DecidableEq

structure Pod where
  metadata : ObjectMeta
  spec : PodSpec
  status : PodStatus
  deriving Repr, DecidableEq

structure ResourceQuota where
  name : String
  nspace : String
  hardLimitsCPU : Nat
  hardLimitsMemory : Nat
  hardRequestsStorage : Nat
  deriving Repr, DecidableEq

/-- `GetLimit0ResourceQuota`: the zero-limit quota record for a namespace. -/
def GetLimit0ResourceQuota (nspace : String) : ResourceQuota :=
  { name := "debt-limit0", nspace := nspace,
    hardLimitsCPU := 0, hardLimitsMemory := 0, hardRequestsStorage := 0 }

/-! ## Watch events and the action trace -/

inductive WEventType where
  | added | modified | deleted | errorEv
  deriving Repr, DecidableEq

/-- One event from a watch stream: its type, whether the carried object is
a pod (the Go code type-asserts `event.Object.(*corev1.Pod)`), and the
object's name. -/
structure WEvent where
  etype : WEventType
  isPod : Bool
  name : String
  deriving Repr, DecidableEq

/-- The condition under which `recreatePod`'s wait loop accepts an event:
a deletion event whose object is a pod whose name equals the old pod's. -/
def matchesDeletion (target : String) (e : WEvent) : Bool :=
  e.etype == WEventType.deleted && e.isPod && e.name == target

inductive Act where
  | watchOpen
  | watchStop
  | observed (e : WEvent)
  | podList (nspace : String)
  | podDelete (name nspace : String)
  | podCreate (p : Pod)
  | quotaWrite (q : ResourceQuota)
  | quotaDelete (name nspace : String)
  | nsGet (nspace : String)
  | nsUpdate (anns : List (String × String))
  deriving Repr, DecidableEq

inductive ApiError where
  | notFound | alreadyExists | transient
  deriving Repr, DecidableEq

/-! ## Execution state -/

structure Cluster where
  pods : List Pod
  quotas : List ResourceQuota
  nsAnnots : List (String × String)
  deriving Repr, DecidableEq

structure ExecState where
  cluster : Cluster
  faults : List Bool
  streams : List (List WEvent)
  trace : List Act
  deriving Repr, DecidableEq

def logAct (a : Act) (s : ExecState) : ExecState :=
  { s with trace := s.trace ++ [a] }

/-- Consume the next injected fault flag; an exhausted schedule means the
call succeeds at the API level. -/
def popFault (s : ExecState) : Bool × ExecState :=
  match s.faults with
  | [] => (false, s)
  | f :: rest => (f, { s with faults := rest })

/-- Consume the next watch-event stream.  An exhausted schedule models the
well-behaved cluster, whose stream delivers exactly the deletion event of
the pod that is about to be deleted. -/
def popStream (target : String) (s : ExecState) : List WEvent × ExecState :=
  match s.streams with
  | [] => ([{ etype := WEventType.deleted, isPod := true, name := target }], s)
  | evs :: rest => (evs, { s with streams := rest })

/-! ## Kubernetes client operations -/

def podPresent (c : Cluster) (name nspace : String) : Bool :=
  c.pods.any (fun p => p.metadata.name == name && p.metadata.nspace == nspace)

def listPods (nspace : String) (s : ExecState) :
    Except ApiError (List Pod) × ExecState :=
  let s1 := logAct (Act.podList nspace) s
  let (f, s2) := popFault s1
  if f then (Except.error ApiError.transient, s2)
  else (Except.ok (s2.cluster.pods.filter (fun p => p.metadata.nspace == nspace)), s2)

def deletePodApi (name nspace : String) (s : ExecState) :
    Except ApiError Unit × ExecState :=
  let s1 := logAct (Act.podDelete name nspace) s
  let (f, s2) := popFault s1
  if f then (Except.error ApiError.transient, s2)
  else if podPresent s2.cluster name nspace then
    (Except.ok (),
      { s2 with cluster := { s2.cluster with
          pods := s2.cluster.pods.filter
            (fun p => !(p.metadata.name == name && p.metadata.nspace == nspace)) } })
  else (Except.error ApiError.notFound, s2)

def createPodApi (p : Pod) (s : ExecState) : Except ApiError Unit × ExecState :=
  let s1 := logAct (Act.podCreate p) s
  let (f, s2) := popFault s1
  if f then (Except.error ApiError.transient, s2)
  else if podPresent s2.cluster p.metadata.name p.metadata.nspace then
    (Except.error ApiError.alreadyExists, s2)
  else (Except.ok (),
    { s2 with cluster := { s2.cluster with pods := s2.cluster.pods ++ [p] } })

def quotaPresent (c : Cluster) (name nspace : String) : Bool :=
  c.quotas.any (fun q => q.name == name && q.nspace == nspace)

/-- `ctrl.CreateOrUpdate` with a no-op mutate function: create the object
if absent; if present, the mutation leaves it unchanged and no write is
performed. -/
def createOrUpdateQuota (q : ResourceQuota) (s : ExecState) :
    Except ApiError Unit × ExecState :=
  let s1 := logAct (Act.quotaWrite q) s
  let (f, s2) := popFault s1
  if f then (Except.error ApiError.transient, s2)
  else if quotaPresent s2.cluster q.name q.nspace then (Except.ok (), s2)
  else (Except.ok (),
    { s2 with cluster := { s2.cluster with quotas := s2.cluster.quotas ++ [q] } })

def deleteQuotaApi (name nspace : String) (s : ExecState) :
    Except ApiError Unit × ExecState :=
  let s1 := logAct (Act.quotaDelete name nspace) s
  let (f, s2) := popFault s1
  if f then (Except.error ApiError.transient, s2)
  else if quotaPresent s2.cluster name nspace then
    (Except.ok (),
      { s2 with cluster := { s2.cluster with
          quotas := s2.cluster.quotas.filter
            (fun q => !(q.name == name && q.nspace == nspace)) } })
  else (Except.error ApiError.notFound, s2)

/-- `client.IgnoreNotFound`. -/
def ignoreNotFound : Except ApiError Unit → Except ApiError Unit
  | Except.error ApiError.notFound => Except.ok ()
  | r => r

def nsGetApi (nspace : String) (s : ExecState) : Except ApiError Unit × ExecState :=
  let s1 := logAct (Act.nsGet nspace) s
  let (f, s2) := popFault s1
  if f then (Except.error ApiError.transient, s2) else (Except.ok (), s2)

/-- `r.Client.Update(ctx, &ns)` after setting the debt-status annotation. -/
def updateNsStatus (value : String) (s : ExecState) :
    Except ApiError Unit × ExecState :=
  let newAnnots := insertA s.cluster.nsAnnots DebtNamespaceAnnoStatusKey value
  let s1 := logAct (Act.nsUpdate newAnnots) s
  let (f, s2) := popFault s1
  if f then (Except.error ApiError.transient, s2)
  else (Except.ok (), { s2 with cluster := { s2.cluster with nsAnnots := newAnnots } })

/-! ## The Atomic Recreate Protocol (`recreatePod`) -/

/-- The wait loop of `recreatePod` (`for event := range ch`): consume the
stream until a deletion event for a pod named like the old pod arrives,
then create the clone and stop the watcher.  When the stream is exhausted
(the channel closed) without a match, the Go loop simply ends and the
function returns `nil`. -/
def recreateWait (oldName : String) (newPod : Pod) :
    List WEvent → ExecState → Except ApiError Unit × ExecState
  | [], s => (Except.ok (), s)
  | e :: rest, s =>
    let s1 := logAct (Act.observed e) s
    if matchesDeletion oldName e then
      match createPodApi newPod s1 with
      | (Except.error err, s2) => (Except.error err, s2)
      | (Except.ok _, s2) => (Except.ok (), logAct Act.watchStop s2)
    else recreateWait oldName newPod rest s1

/-- `recreatePod`: open the watch stream, delete the old pod, wait for the
matching deletion notification, then create the replacement. -/
def recreatePod (oldPod newPod : Pod) (s : ExecState) :
    Except ApiError Unit × ExecState :=
  let s1 := logAct Act.watchOpen s
  let (f, s2) := popFault s1
  if f then (Except.error ApiError.transient, s2)
  else
    let (evs, s3) := popStream oldPod.metadata.name s2
    match deletePodApi oldPod.metadata.name oldPod.metadata.nspace s3 with
    | (Except.error e, s4) => (Except.error e, s4)
    | (Except.ok _, s4) => recreateWait oldPod.metadata.name newPod evs s4

/-! ## Clones -/

/-- The clone built in `suspendOrphanPod`: resource version cleared, node
assignment cleared, status reset, scheduler set to the reserved
designator, and the original scheduler saved into the previous-scheduler
annotation. -/
def suspendClone (pod : Pod) : Pod :=
  { pod with
    metadata := { pod.metadata with
      resourceVersion := ""
      annots := insertA pod.metadata.annots PreviousSchedulerName pod.spec.schedulerName }
    spec := { pod.spec with nodeName := "", schedulerName := DebtSchedulerName }
    status := { phase := "" } }

/-- The clone built in `resumePod`: resource version cleared, node
assignment cleared, status reset, scheduler restored from the
previous-scheduler annotation (removing it) or cleared to `""` when the
annotation is absent. -/
def resumeClone (pod : Pod) : Pod :=
  let base : Pod :=
    { pod with
      metadata := { pod.metadata with resourceVersion := "" }
      spec := { pod.spec with nodeName := "" }
      status := { phase := "" } }
  match lookupA pod.metadata.annots PreviousSchedulerName with
  | some sched =>
    { base with
      metadata := { base.metadata with
        annots := eraseA base.metadata.annots PreviousSchedulerName }
      spec := { base.spec with schedulerName := sched } }
  | none => { base with spec := { base.spec with schedulerName := "" } }

/-! ## Pipeline stages -/

/-- Loop body of `suspendOrphanPod`: skip pods already carrying the
reserved designator or having owner references; recreate the rest as
parked clones. -/
def suspendLoop : List Pod → ExecState → Except ApiError Unit × ExecState
  | [], s => (Except.ok (), s)
  | pod :: rest, s =>
    if pod.spec.schedulerName == DebtSchedulerName
        || pod.metadata.ownerReferences.length > 0 then
      suspendLoop rest s
    else
      match recreatePod pod (suspendClone pod) s with
      | (Except.error e, s1) => (Except.error e, s1)
      | (Except.ok _, s1) => suspendLoop rest s1

def suspendOrphanPod (nspace : String) (s : ExecState) :
    Except ApiError Unit × ExecState :=
  match listPods nspace s with
  | (Except.error e, s1) => (Except.error e, s1)
  | (Except.ok pods, s1) => suspendLoop pods s1

/-- Loop body of `deleteControlledPod`: skip pods carrying the reserved
designator or having no owner references; delete the rest outright. -/
def deleteControlledLoop : List Pod → ExecState → Except ApiError Unit × ExecState
  | [], s => (Except.ok (), s)
  | pod :: rest, s =>
    if pod.spec.schedulerName == DebtSchedulerName
        || pod.metadata.ownerReferences.length == 0 then
      deleteControlledLoop rest s
    else
      match deletePodApi pod.metadata.name pod.metadata.nspace s with
      | (Except.error e, s1) => (Except.error e, s1)
      | (Except.ok _, s1) => deleteControlledLoop rest s1

def deleteControlledPod (nspace : String) (s : ExecState) :
    Except ApiError Unit × ExecState :=
  match listPods nspace s with
  | (Except.error e, s1) => (Except.error e, s1)
  | (Except.ok pods, s1) => deleteControlledLoop pods s1

/-- Loop body of `resumePod`: skip pods unless their phase is the
suspended phase and their scheduler is the reserved designator; delete
owned pods outright; recreate unowned pods from the restored clone. -/
def resumeLoop : List Pod → ExecState → Except ApiError Unit × ExecState
  | [], s => (Except.ok (), s)
  | pod :: rest, s =>
    if pod.status.phase != PodPhaseSuspended
        || pod.spec.schedulerName != DebtSchedulerName then
      resumeLoop rest s
    else if pod.metadata.ownerReferences.length > 0 then
      match deletePodApi pod.metadata.name pod.metadata.nspace s with
      | (Except.error e, s1) => (Except.error e, s1)
      | (Except.ok _, s1) => resumeLoop rest s1
    else
      match recreatePod pod (resumeClone pod) s with
      | (Except.error e, s1) => (Except.error e, s1)
      | (Except.ok _, s1) => resumeLoop rest s1

def resumePod (nspace : String) (s : ExecState) :
    Except ApiError Unit × ExecState :=
  match listPods nspace s with
  | (Except.error e, s1) => (Except.error e, s1)
  | (Except.ok pods, s1) => resumeLoop pods s1

def limitResourceQuotaCreate (nspace : String) (s : ExecState) :
    Except ApiError Unit × ExecState :=
  createOrUpdateQuota (GetLimit0ResourceQuota nspace) s

def limitResourceQuotaDelete (nspace : String) (s : ExecState) :
    Except ApiError Unit × ExecState :=
  let (r, s1) := deleteQuotaApi (GetLimit0ResourceQuota nspace).name nspace s
  (ignoreNotFound r, s1)

/-! ## Pipelines and Reconcile -/

/-- The `for _, fn := range pipelines` loop: run the stages in order,
returning the first error. -/
def runPipeline :
    List (String → ExecState → Except ApiError Unit × ExecState) →
    String → ExecState → Except ApiError Unit × ExecState
  | [], _, s => (Except.ok (), s)
  | fn :: fns, nspace, s =>
    match fn nspace s with
    | (Except.error e, s1) => (Except.error e, s1)
    | (Except.ok _, s1) => runPipeline fns nspace s1

def SuspendUserResource (nspace : String) (s : ExecState) :
    Except ApiError Unit × ExecState :=
  runPipeline [suspendOrphanPod, limitResourceQuotaCreate, deleteControlledPod] nspace s

def ResumeUserResource (nspace : String) (s : ExecState) :
    Except ApiError Unit × ExecState :=
  runPipeline [limitResourceQuotaDelete, resumePod] nspace s

/-- `Reconcile`: read the namespace, branch on the debt-status annotation. -/
def Reconcile (nspace : String) (s : ExecState) :
    Except ApiError Unit × ExecState :=
  match nsGetApi nspace s with
  | (Except.error e, s1) => (Except.error e, s1)
  | (Except.ok _, s1) =>
    match lookupA s1.cluster.nsAnnots DebtNamespaceAnnoStatusKey with
    | none => (Except.ok (), s1)
    | some debtStatus =>
      if debtStatus == SuspendDebtNamespaceAnnoStatus then
        SuspendUserResource nspace s1
      else if debtStatus == ResumeDebtNamespaceAnnoStatus then
        match ResumeUserResource nspace s1 with
        | (Except.error e, s2) => (Except.error e, s2)
        | (Except.ok _, s2) => updateNsStatus NormalDebtNamespaceAnnoStatus s2
      else if debtStatus == NormalDebtNamespaceAnnoStatus then (Except.ok (), s1)
      else updateNsStatus NormalDebtNamespaceAnnoStatus s1

/-! ## External collaborators (for multi-step scenarios) -/

/-- Modelled from the spec: the external billing signal writing a new
debt-status value onto the namespace (out-of-scope collaborator). -/
def setDebtStatus (value : String) (s : ExecState) : ExecState :=
  { s with cluster := { s.cluster with
      nsAnnots := insertA s.cluster.nsAnnots DebtNamespaceAnnoStatusKey value } }

/-- Modelled from the spec: between suspension and resumption the platform
marks pods parked under the reserved designator with the suspended
lifecycle phase (the phase field is owned by the cluster, an external
collaborator). -/
def markParkedPodsSuspended (s : ExecState) : ExecState :=
  { s with cluster := { s.cluster with
      pods := s.cluster.pods.map (fun p =>
        if p.spec.schedulerName == DebtSchedulerName then
          { p with status := { phase := PodPhaseSuspended } }
        else p) } }

/-! ## Concrete scenario data -/

/-- An unmanaged pod with original scheduler `default`. -/
def podA : Pod :=
  { metadata := { name := "pod-a", nspace := "ns-user", resourceVersion := "101",
                  ownerReferences := [], annots := [] },
    spec := { schedulerName := "default", nodeName := "node-1" },
    status := { phase := "Running" } }

/-- A managed pod (one owner reference). -/
def podB : Pod :=
  { metadata := { name := "pod-b", nspace := "ns-user", resourceVersion := "102",
                  ownerReferences := ["replicaset-b"], annots := [] },
    spec := { schedulerName := "default", nodeName := "node-1" },
    status := { phase := "Running" } }

def mkState (pods : List Pod) (quotas : List ResourceQuota)
    (anns : List (String × String)) (faults : List Bool)
    (streams : List (List WEvent)) : ExecState :=
  { cluster := { pods := pods, quotas := quotas, nsAnnots := anns },
    faults := faults, streams := streams, trace := [] }

/-- Number of create calls for pods of a given name in a trace. -/
def createsOf (name : String) (tr : List Act) : Nat :=
  (tr.filter (fun a => match a with
    | Act.podCreate p => p.metadata.name == name
    | _ => false)).length

/-- Scenario: old pod present, the watch stream closes at once (explicit
empty stream). -/
def c2S : ExecState := mkState [podA] [] [] [] [[]]

/-- Round-trip scenario: one unmanaged pod and one managed pod, suspend
requested. -/
def c3Init : ExecState :=
  mkState [podA, podB] []
    [(DebtNamespaceAnnoStatusKey, SuspendDebtNamespaceAnnoStatus)] [] []

def c3AfterSuspend : ExecState := (Reconcile "ns-user" c3Init).2

/-- Literal composition: suspend reconciliation, the external billing
signal flips the status to resume, resume reconciliation — with no
platform activity in between. -/
def c3LiteralEnd : ExecState :=
  (Reconcile "ns-user" (setDebtStatus ResumeDebtNamespaceAnnoStatus c3AfterSuspend)).2

/-- Same, but the platform marks the parked pod with the suspended phase
before the resume reconciliation. -/
def c3AmendedEnd : ExecState :=
  (Reconcile "ns-user"
    (markParkedPodsSuspended
      (setDebtStatus ResumeDebtNamespaceAnnoStatus c3AfterSuspend))).2

/-- A pod parked under the reserved designator whose phase is not the
suspended phase. -/
def podParkedRunning : Pod :=
  { metadata := { name := "pod-c", nspace := "ns-user", resourceVersion := "7",
                  ownerReferences := [], annots := [(PreviousSchedulerName, "default")] },
    spec := { schedulerName := DebtSchedulerName, nodeName := "" },
    status := { phase := "Running" } }

def c4S : ExecState := mkState [podParkedRunning] [] [] [] []

/-- A parked pod in the suspended phase (resume-eligible). -/
def podParkedSuspended : Pod :=
  { metadata := { name := "pod-d", nspace := "ns-user", resourceVersion := "8",
                  ownerReferences := [], annots := [(PreviousSchedulerName, "default")] },
    spec := { schedulerName := DebtSchedulerName, nodeName := "" },
    status := { phase := "Suspended" } }

def c4W : ExecState := mkState [podParkedSuspended] [] [] [] []

/-- A fault on the very first API call (the pod list of the suspend
pipeline's first stage). -/
def c5S : ExecState := mkState [podA] [] [] [true] []

def c6S : ExecState :=
  mkState [] [] [(DebtNamespaceAnnoStatusKey, ResumeDebtNamespaceAnnoStatus)] [] []

def c7S : ExecState := mkState [] [] [] [] []

def c8S : ExecState :=
  mkState [podA] [GetLimit0ResourceQuota "ns-user"]
    [(DebtNamespaceAnnoStatusKey, "garbage")] [] []

def c1S : ExecState := mkState [podA] [] [] [] []

/-! # Lemmas -/

theorem lookupA_insertA_self (l : List (String × String)) (k v : String) :
    lookupA (insertA l k v) k = some v := by
  induction l with
  | nil => simp [insertA, lookupA]
  | cons kv rest ih =>
    obtain ⟨k1, v1⟩ := kv
    by_cases h : k1 = k
    · simp [insertA, lookupA, h]
    · simp [insertA, lookupA, h, ih]

theorem lookupA_insertA_ne (l : List (String × String)) (k v k1 : String)
    (h : k1 ≠ k) : lookupA (insertA l k v) k1 = lookupA l k1 := by
  have hk : ¬ k = k1 := fun hh => h hh.symm
  induction l with
  | nil => simp [insertA, lookupA, hk]
  | cons kv rest ih =>
    obtain ⟨k2, v2⟩ := kv
    by_cases h2 : k2 = k
    · subst h2
      simp [insertA, lookupA, hk]
    · simp [insertA, lookupA, h2, ih]

theorem lookupA_eraseA_self (l : List (String × String)) (k : String) :
    lookupA (eraseA l k) k = none := by
  induction l with
  | nil => simp [eraseA, lookupA]
  | cons kv rest ih =>
    obtain ⟨k1, v1⟩ := kv
    by_cases h : k1 = k
    · simp [eraseA, h, ih]
    · simp [eraseA, lookupA, h, ih]

theorem resumeClone_sched_restored (p : Pod) :
    (resumeClone p).spec.schedulerName =
      (lookupA p.metadata.annots PreviousSchedulerName).getD "" := by
  unfold resumeClone
  cases h : lookupA p.metadata.annots PreviousSchedulerName <;> simp [h]

theorem resumeClone_prev_absent (p : Pod) :
    lookupA (resumeClone p).metadata.annots PreviousSchedulerName = none := by
  unfold resumeClone
  cases h : lookupA p.metadata.annots PreviousSchedulerName with
  | none => simp [h]
  | some v => simp [h, lookupA_eraseA_self]

/-- C9: the clone built for a recreate preserves the pod's identity and
clears its placement: name and namespace are kept, node assignment,
status and resource version are cleared, and the scheduler designator is
set to the target value — the reserved designator on suspend, the
restored previous designator (or `""`) on resume. -/
theorem C9_clone_preserves_identity_clears_placement (p : Pod) :
    ((suspendClone p).metadata.name = p.metadata.name ∧
     (suspendClone p).metadata.nspace = p.metadata.nspace ∧
     (suspendClone p).spec.nodeName = "" ∧
     (suspendClone p).status = { phase := "" } ∧
     (suspendClone p).metadata.resourceVersion = "" ∧
     (suspendClone p).spec.schedulerName = DebtSchedulerName) ∧
    ((resumeClone p).metadata.name = p.metadata.name ∧
     (resumeClone p).metadata.nspace = p.metadata.nspace ∧
     (resumeClone p).spec.nodeName = "" ∧
     (resumeClone p).status = { phase := "" } ∧
     (resumeClone p).metadata.resourceVersion = "" ∧
     (resumeClone p).spec.schedulerName =
       (lookupA p.metadata.annots PreviousSchedulerName).getD "") := by
  refine ⟨⟨rfl, rfl, rfl, rfl, rfl, rfl⟩,
    ?_, ?_, ?_, ?_, ?_, resumeClone_sched_restored p⟩ <;>
    · unfold resumeClone
      cases h : lookupA p.metadata.annots PreviousSchedulerName <;> simp [h]

/-- C10: `suspendOrphanPod` always records the previous-scheduler
annotation on the parked clone — even when the original designator is the
empty string — so resuming a pod parked by this controller always takes
the annotation-present branch: the designator is restored exactly and the
`""` fallback is never exercised. -/
theorem C10_parked_pods_carry_previous_scheduler (p : Pod) :
    lookupA (suspendClone p).metadata.annots PreviousSchedulerName =
      some p.spec.schedulerName ∧
    (resumeClone (suspendClone p)).spec.schedulerName = p.spec.schedulerName ∧
    lookupA (resumeClone (suspendClone p)).metadata.annots
      PreviousSchedulerName = none := by
  refine ⟨by simp [suspendClone, lookupA_insertA_self], ?_,
    resumeClone_prev_absent _⟩
  rw [resumeClone_sched_restored]
  simp [suspendClone, lookupA_insertA_self]

theorem popFault_trace (s : ExecState) : (popFault s).2.trace = s.trace := by
  cases h : s.faults <;> simp [popFault, h]

theorem popStream_trace (t : String) (s : ExecState) :
    (popStream t s).2.trace = s.trace := by
  cases h : s.streams <;> simp [popStream, h]

theorem deletePodApi_trace (n ns : String) (s : ExecState) :
    ((deletePodApi n ns s).2).trace = s.trace ++ [Act.podDelete n ns] := by
  unfold deletePodApi
  cases h : s.faults with
  | nil => simp [popFault, logAct, h]; split <;> simp
  | cons f rest =>
    cases f <;> simp [popFault, logAct, h]
    split <;> simp

theorem createPodApi_trace (p : Pod) (s : ExecState) :
    ((createPodApi p s).2).trace = s.trace ++ [Act.podCreate p] := by
  unfold createPodApi
  cases h : s.faults with
  | nil => simp [popFault, logAct, h]; split <;> simp
  | cons f rest =>
    cases f <;> simp [popFault, logAct, h]
    split <;> simp

theorem recreateWait_no_match (target : String) (newPod : Pod) :
    ∀ (evs : List WEvent), (∀ e ∈ evs, matchesDeletion target e = false) →
      ∀ (s : ExecState),
      recreateWait target newPod evs s =
        (Except.ok (), { s with trace := s.trace ++ evs.map Act.observed })
  | [], _, s => by simp [recreateWait]
  | e :: rest, h, s => by
    have he : matchesDeletion target e = false := h e (by simp)
    have ih := recreateWait_no_match target newPod rest
      (fun x hx => h x (by simp [hx])) (logAct (Act.observed e) s)
    simp only [recreateWait, he, Bool.false_eq_true, if_false]
    rw [ih]
    simp [logAct, List.append_assoc]

theorem recreateWait_found (target : String) (newPod : Pod) :
    ∀ (pre : List WEvent) (e : WEvent) (rest : List WEvent) (s : ExecState),
      (∀ x ∈ pre, matchesDeletion target x = false) →
      matchesDeletion target e = true →
      recreateWait target newPod (pre ++ e :: rest) s =
        (match createPodApi newPod
            { s with trace := s.trace ++ pre.map Act.observed ++ [Act.observed e] } with
         | (Except.error err, s2) => (Except.error err, s2)
         | (Except.ok _, s2) => (Except.ok (), logAct Act.watchStop s2))
  | [], e, rest, s, _, he => by
    simp [recreateWait, he, logAct]
  | x :: pre, e, rest, s, hpre, he => by
    have hx : matchesDeletion target x = false := hpre x (by simp)
    have ih := recreateWait_found target newPod pre e rest (logAct (Act.observed x) s)
      (fun y hy => hpre y (by simp [hy])) he
    rw [List.cons_append]
    simp only [recreateWait, hx, Bool.false_eq_true, if_false]
    rw [ih]
    simp [logAct, List.append_assoc]

theorem firstMatchSplit (target : String) :
    ∀ (evs : List WEvent),
      (∀ e ∈ evs, matchesDeletion target e = false) ∨
      ∃ pre e rest, evs = pre ++ e :: rest ∧ matchesDeletion target e = true ∧
        ∀ x ∈ pre, matchesDeletion target x = false
  | [] => Or.inl (by simp)
  | e :: evs => by
    cases he : matchesDeletion target e with
    | true => exact Or.inr ⟨[], e, evs, by simp, he, by simp⟩
    | false =>
      cases firstMatchSplit target evs with
      | inl h =>
        refine Or.inl ?_
        intro x hx
        rcases List.mem_cons.mp hx with h1 | h1
        · exact h1 ▸ he
        · exact h x h1
      | inr h =>
        obtain ⟨pre, m, rest, h1, h2, h3⟩ := h
        refine Or.inr ⟨e :: pre, m, rest, by simp [h1], h2, ?_⟩
        intro x hx
        rcases List.mem_cons.mp hx with h1x | h1x
        · exact h1x ▸ he
        · exact h3 x h1x

/-- C1: in `recreatePod` the watch subscription is opened before the
delete of the old pod is issued; the create of the replacement is issued
only after a deletion notification whose subject name equals the old
pod's name has been observed on that subscription; and all events
observed before it — non-deletion events and deletion events for other
pod names — are ignored (in particular, if no matching deletion event is
observed, no create is issued at all). -/
theorem C1_subscribe_delete_wait_create_order (s : ExecState) (oldPod newPod : Pod) :
    ∃ δ, (recreatePod oldPod newPod s).2.trace = s.trace ++ δ ∧
      δ.head? = some Act.watchOpen ∧
      ((∃ p, Act.podCreate p ∈ δ) →
        ∃ pre e tail,
          δ = Act.watchOpen ::
              Act.podDelete oldPod.metadata.name oldPod.metadata.nspace ::
              (List.map Act.observed pre ++ Act.observed e :: tail) ∧
          matchesDeletion oldPod.metadata.name e = true ∧
          (∀ x ∈ pre, matchesDeletion oldPod.metadata.name x = false) ∧
          tail.head? = some (Act.podCreate newPod)) ∧
      ((∀ e, Act.observed e ∈ δ → matchesDeletion oldPod.metadata.name e = false) →
        ∀ p, Act.podCreate p ∉ δ) := by
  rcases hpf : popFault (logAct Act.watchOpen s) with ⟨f, s2⟩
  have hs2 : s2.trace = s.trace ++ [Act.watchOpen] := by
    have h := popFault_trace (logAct Act.watchOpen s)
    rw [hpf] at h
    simpa [logAct] using h
  cases f with
  | true =>
    refine ⟨[Act.watchOpen], ?_, rfl, ?_, ?_⟩
    · simp [recreatePod, hpf, hs2]
    · rintro ⟨p, hp⟩
      simp at hp
    · intro _ p
      simp
  | false =>
    rcases hps : popStream oldPod.metadata.name s2 with ⟨evs, s3⟩
    have hs3 : s3.trace = s2.trace := by
      have h := popStream_trace oldPod.metadata.name s2
      rw [hps] at h
      exact h
    rcases hdel : deletePodApi oldPod.metadata.name oldPod.metadata.nspace s3 with ⟨rd, s4⟩
    have hs4 : s4.trace = s.trace ++
        [Act.watchOpen, Act.podDelete oldPod.metadata.name oldPod.metadata.nspace] := by
      have h := deletePodApi_trace oldPod.metadata.name oldPod.metadata.nspace s3
      rw [hdel] at h
      simp at h
      simp [h, hs3, hs2]
    cases rd with
    | error e =>
      refine ⟨[Act.watchOpen, Act.podDelete oldPod.metadata.name oldPod.metadata.nspace],
        ?_, rfl, ?_, ?_⟩
      · simp [recreatePod, hpf, hps, hdel, hs4]
      · rintro ⟨p, hp⟩
        simp at hp
      · intro _ p
        simp
    | ok u =>
      have hrun : recreatePod oldPod newPod s =
          recreateWait oldPod.metadata.name newPod evs s4 := by
        simp [recreatePod, hpf, hps, hdel]
      rcases firstMatchSplit oldPod.metadata.name evs with hnone | ⟨pre, e, rest, heq, hm, hpre⟩
      · rw [recreateWait_no_match oldPod.metadata.name newPod evs hnone s4] at hrun
        refine ⟨[Act.watchOpen, Act.podDelete oldPod.metadata.name oldPod.metadata.nspace]
            ++ List.map Act.observed evs, ?_, rfl, ?_, ?_⟩
        · simp [hrun, hs4]
        · rintro ⟨p, hp⟩
          simp at hp
        · intro _ p
          simp
      · subst heq
        rw [recreateWait_found oldPod.metadata.name newPod pre e rest s4 hpre hm] at hrun
        rcases hcr : createPodApi newPod
            { s4 with trace := s4.trace ++ List.map Act.observed pre ++ [Act.observed e] }
          with ⟨rc, s6⟩
        have hs6 : s6.trace = s.trace ++
            (Act.watchOpen :: Act.podDelete oldPod.metadata.name oldPod.metadata.nspace ::
              (List.map Act.observed pre ++ Act.observed e :: [Act.podCreate newPod])) := by
          have h := createPodApi_trace newPod
            { s4 with trace := s4.trace ++ List.map Act.observed pre ++ [Act.observed e] }
          rw [hcr] at h
          simp at h
          simp [h, hs4]
        cases rc with
        | error err =>
          rw [hcr] at hrun
          refine ⟨Act.watchOpen ::
              Act.podDelete oldPod.metadata.name oldPod.metadata.nspace ::
              (List.map Act.observed pre ++ Act.observed e :: [Act.podCreate newPod]),
            ?_, rfl, ?_, ?_⟩
          · simp only [hrun]
            exact hs6
          · intro _
            exact ⟨pre, e, [Act.podCreate newPod], rfl, hm, hpre, rfl⟩
          · intro hno p
            have : matchesDeletion oldPod.metadata.name e = false := by
              refine hno e ?_
              simp
            rw [hm] at this
            cases this
        | ok v =>
          rw [hcr] at hrun
          refine ⟨Act.watchOpen ::
              Act.podDelete oldPod.metadata.name oldPod.metadata.nspace ::
              (List.map Act.observed pre ++ Act.observed e ::
                [Act.podCreate newPod, Act.watchStop]),
            ?_, rfl, ?_, ?_⟩
          · simp only [hrun, logAct]
            simp [hs6]
          · intro _
            exact ⟨pre, e, [Act.podCreate newPod, Act.watchStop], rfl, hm, hpre, rfl⟩
          · intro hno p
            have : matchesDeletion oldPod.metadata.name e = false := by
              refine hno e ?_
              simp
            rw [hm] at this
            cases this

/-- Witness for C1 at a concrete input: one pod, the well-behaved stream. -/
theorem C1_witness :
    ∃ δ, (recreatePod podA (suspendClone podA) c1S).2.trace = c1S.trace ++ δ ∧
      δ.head? = some Act.watchOpen ∧
      ((∃ p, Act.podCreate p ∈ δ) →
        ∃ pre e tail,
          δ = Act.watchOpen ::
              Act.podDelete podA.metadata.name podA.metadata.nspace ::
              (List.map Act.observed pre ++ Act.observed e :: tail) ∧
          matchesDeletion podA.metadata.name e = true ∧
          (∀ x ∈ pre, matchesDeletion podA.metadata.name x = false) ∧
          tail.head? = some (Act.podCreate (suspendClone podA))) ∧
      ((∀ e, Act.observed e ∈ δ → matchesDeletion podA.metadata.name e = false) →
        ∀ p, Act.podCreate p ∉ δ) :=
  C1_subscribe_delete_wait_create_order c1S podA (suspendClone podA)

theorem podsFilter_absent (l : List Pod) (n ns : String) :
    (l.filter (fun p => !(p.metadata.name == n && p.metadata.nspace == ns))).any
      (fun p => p.metadata.name == n && p.metadata.nspace == ns) = false := by
  induction l with
  | nil => simp
  | cons q rest ih =>
    cases h : (q.metadata.name == n && q.metadata.nspace == ns) with
    | true => simpa [List.filter, h] using ih
    | false => simpa [List.filter, h] using ih

/-- C2 counterexample: with the old pod present and a watch stream that
closes at once (no events delivered), `recreatePod` attempts no create of
the replacement — but it returns success instead of failing, so the
closed stream is not surfaced as an error to the caller. -/
theorem C2_counterexample :
    (recreatePod podA (suspendClone podA) c2S).1 = Except.ok () ∧
    (recreatePod podA (suspendClone podA) c2S).2.trace =
      [Act.watchOpen, Act.podDelete "pod-a" "ns-user"] := by
  constructor <;> rfl

/-- C2 amended: if the subscription's event stream is closed (or yields
only non-matching events) before a deletion notification matching the old
pod's name arrives, `recreatePod` attempts no create of the replacement
pod — but it returns success to its caller rather than surfacing an
error. -/
theorem C2_closed_stream_no_create_but_success
    (s : ExecState) (oldPod newPod : Pod) (evs : List WEvent)
    (rest : List (List WEvent))
    (hf : s.faults = [])
    (hs : s.streams = evs :: rest)
    (hnm : ∀ e ∈ evs, matchesDeletion oldPod.metadata.name e = false)
    (hp : podPresent s.cluster oldPod.metadata.name oldPod.metadata.nspace = true) :
    (recreatePod oldPod newPod s).1 = Except.ok () ∧
    (recreatePod oldPod newPod s).2.trace =
      s.trace ++ Act.watchOpen ::
        Act.podDelete oldPod.metadata.name oldPod.metadata.nspace ::
        List.map Act.observed evs ∧
    ∀ p, Act.podCreate p ∈ (recreatePod oldPod newPod s).2.trace →
      Act.podCreate p ∈ s.trace := by
  have hrun : recreatePod oldPod newPod s =
      recreateWait oldPod.metadata.name newPod evs
        { s with
          cluster := { s.cluster with
            pods := s.cluster.pods.filter (fun p =>
              !(p.metadata.name == oldPod.metadata.name &&
                p.metadata.nspace == oldPod.metadata.nspace)) },
          streams := rest,
          trace := s.trace ++ [Act.watchOpen,
            Act.podDelete oldPod.metadata.name oldPod.metadata.nspace] } := by
    simp [recreatePod, logAct, popFault, popStream, deletePodApi, hf, hs, hp]
  rw [recreateWait_no_match oldPod.metadata.name newPod evs hnm _] at hrun
  refine ⟨by simp [hrun], by simp [hrun], ?_⟩
  intro p hp2
  rw [hrun] at hp2
  have hmem : Act.podCreate p ∈
      (s.trace ++ [Act.watchOpen,
        Act.podDelete oldPod.metadata.name oldPod.metadata.nspace])
        ++ List.map Act.observed evs := by
    simpa using hp2
  rcases List.mem_append.mp hmem with h1 | h1
  · rcases List.mem_append.mp h1 with h2 | h2
    · exact h2
    · simp at h2
  · simp at h1

/-- Witness for the amended C2 at a concrete input: the explicit empty
stream of `c2S`. -/
theorem C2_closed_stream_witness :
    (recreatePod podA (suspendClone podA) c2S).1 = Except.ok () ∧
    (recreatePod podA (suspendClone podA) c2S).2.trace =
      c2S.trace ++ Act.watchOpen ::
        Act.podDelete podA.metadata.name podA.metadata.nspace ::
        List.map Act.observed [] ∧
    ∀ p, Act.podCreate p ∈ (recreatePod podA (suspendClone podA) c2S).2.trace →
      Act.podCreate p ∈ c2S.trace :=
  C2_closed_stream_no_create_but_success c2S podA (suspendClone podA) [] []
    rfl rfl (by simp) (by decide)

/-- C3 counterexample: composing the Suspend reconciliation and the
Resume reconciliation literally (only the external billing signal flips
the status in between) does not restore pod A: parking reset the pod's
status, so the recreated pod does not carry the suspended phase and the
resume loop skips it.  A ends still parked under the reserved designator
with the previous-scheduler annotation still present, and is created only
once — not recreated twice ending with scheduler `default` and no
annotation, as the claim states. -/
theorem C3_counterexample :
    c3LiteralEnd.cluster.pods = [suspendClone podA] ∧
    (suspendClone podA).spec.schedulerName = DebtSchedulerName ∧
    DebtSchedulerName ≠ "default" ∧
    lookupA (suspendClone podA).metadata.annots PreviousSchedulerName =
      some "default" ∧
    createsOf "pod-a" c3LiteralEnd.trace = 1 := by
  exact ⟨rfl, rfl, by decide, rfl, rfl⟩

/-- C3 amended: if the platform marks the parked pod with the suspended
lifecycle phase before the resume reconciliation runs, the Suspend then
Resume round trip yields exactly the claimed end state: A recreated twice
ending with scheduler `default` and no previous-scheduler annotation, B
deleted during suspend and absent at the end, the zero-limit quota record
absent, and Debt Status written to `Normal`. -/
theorem C3_suspend_resume_round_trip :
    createsOf "pod-a" c3AmendedEnd.trace = 2 ∧
    c3AmendedEnd.cluster.pods.map (fun p =>
      (p.metadata.name, p.spec.schedulerName,
        lookupA p.metadata.annots PreviousSchedulerName)) =
      [("pod-a", "default", none)] ∧
    Act.podDelete "pod-b" "ns-user" ∈ c3AfterSuspend.trace ∧
    podPresent c3AmendedEnd.cluster "pod-b" "ns-user" = false ∧
    quotaPresent c3AmendedEnd.cluster "debt-limit0" "ns-user" = false ∧
    lookupA c3AmendedEnd.cluster.nsAnnots DebtNamespaceAnnoStatusKey =
      some NormalDebtNamespaceAnnoStatus := by
  exact ⟨rfl, rfl, by decide, rfl, rfl, rfl⟩

theorem resumeClone_name (p : Pod) :
    (resumeClone p).metadata.name = p.metadata.name := by
  unfold resumeClone
  cases h : lookupA p.metadata.annots PreviousSchedulerName <;> simp [h]

theorem resumeClone_nspace (p : Pod) :
    (resumeClone p).metadata.nspace = p.metadata.nspace := by
  unfold resumeClone
  cases h : lookupA p.metadata.annots PreviousSchedulerName <;> simp [h]

theorem any_filter_other (l : List Pod) (n ns n1 ns1 : String)
    (h : ¬(n1 = n ∧ ns1 = ns)) :
    (l.filter (fun p => !(p.metadata.name == n && p.metadata.nspace == ns))).any
      (fun p => p.metadata.name == n1 && p.metadata.nspace == ns1) =
    l.any (fun p => p.metadata.name == n1 && p.metadata.nspace == ns1) := by
  induction l with
  | nil => simp
  | cons x rest ih =>
    cases hx : (x.metadata.name == n && x.metadata.nspace == ns) with
    | false =>
      have hcond : (!(x.metadata.name == n && x.metadata.nspace == ns)) = true := by
        rw [hx]; rfl
      rw [List.filter_cons, if_pos hcond]
      simp only [List.any_cons, ih]
    | true =>
      have hcond : ¬((!(x.metadata.name == n && x.metadata.nspace == ns)) = true) := by
        rw [hx]; simp
      have hx2 : x.metadata.name = n ∧ x.metadata.nspace = ns := by
        simpa using hx
      have hxm : (x.metadata.name == n1 && x.metadata.nspace == ns1) = false := by
        cases hy : (x.metadata.name == n1 && x.metadata.nspace == ns1) with
        | false => rfl
        | true =>
          have hy2 : x.metadata.name = n1 ∧ x.metadata.nspace = ns1 := by
            simpa using hy
          exact absurd ⟨hy2.1.symm.trans hx2.1, hy2.2.symm.trans hx2.2⟩ h
      rw [List.filter_cons, if_neg hcond]
      simp only [List.any_cons, ih, hxm, Bool.false_or]

theorem podPresent_of_mem (c : Cluster) (p : Pod) (h : p ∈ c.pods) :
    podPresent c p.metadata.name p.metadata.nspace = true :=
  List.any_eq_true.mpr ⟨p, h, by simp⟩

theorem deletePodApi_present (n ns : String) (s : ExecState)
    (hf : s.faults = []) (hp : podPresent s.cluster n ns = true) :
    deletePodApi n ns s =
      (Except.ok (),
        { s with
          cluster := { s.cluster with pods := s.cluster.pods.filter (fun p =>
            !(p.metadata.name == n && p.metadata.nspace == ns)) },
          trace := s.trace ++ [Act.podDelete n ns] }) := by
  simp [deletePodApi, logAct, popFault, hf, hp]

/-- `recreatePod` under the well-behaved cluster (no injected faults, the
default watch stream delivering the old pod's deletion event): the old
pod is removed, the clone appended, and the full protocol trace logged. -/
theorem recreatePod_wb (oldPod newPod : Pod) (s : ExecState)
    (hf : s.faults = []) (hs : s.streams = [])
    (hname : newPod.metadata.name = oldPod.metadata.name)
    (hns : newPod.metadata.nspace = oldPod.metadata.nspace)
    (hp : podPresent s.cluster oldPod.metadata.name oldPod.metadata.nspace = true) :
    recreatePod oldPod newPod s =
      (Except.ok (),
        { s with
          cluster := { s.cluster with
            pods := s.cluster.pods.filter (fun p =>
              !(p.metadata.name == oldPod.metadata.name &&
                p.metadata.nspace == oldPod.metadata.nspace)) ++ [newPod] },
          trace := s.trace ++ [Act.watchOpen,
            Act.podDelete oldPod.metadata.name oldPod.metadata.nspace,
            Act.observed
              { etype := WEventType.deleted, isPod := true,
                name := oldPod.metadata.name },
            Act.podCreate newPod, Act.watchStop] }) := by
  have hm : matchesDeletion oldPod.metadata.name
      { etype := WEventType.deleted, isPod := true,
        name := oldPod.metadata.name } = true := by
    simp [matchesDeletion]
  have hrun : recreatePod oldPod newPod s =
      recreateWait oldPod.metadata.name newPod
        [{ etype := WEventType.deleted, isPod := true, name := oldPod.metadata.name }]
        { s with
          cluster := { s.cluster with pods := s.cluster.pods.filter (fun p =>
            !(p.metadata.name == oldPod.metadata.name &&
              p.metadata.nspace == oldPod.metadata.nspace)) },
          trace := s.trace ++ [Act.watchOpen,
            Act.podDelete oldPod.metadata.name oldPod.metadata.nspace] } := by
    simp [recreatePod, logAct, popFault, popStream, deletePodApi, hf, hs, hp]
  rw [hrun]
  simp [recreateWait, hm, createPodApi, logAct, popFault, podPresent, hf, hname, hns,
    List.append_assoc]
  have hcontra : ¬ ∃ x ∈ s.cluster.pods,
      (¬x.metadata.name = oldPod.metadata.name ∨
        ¬x.metadata.nspace = oldPod.metadata.nspace) ∧
        x.metadata.name = oldPod.metadata.name ∧
        x.metadata.nspace = oldPod.metadata.nspace := by
    rintro ⟨x, hx, hor, ha, hb⟩
    rcases hor with hcase | hcase
    · exact hcase ha
    · exact hcase hb
  rw [if_neg hcontra]
  simp [List.append_assoc]

/-- The resume loop under the well-behaved cluster: it completes without
error and, for every listed pod in the suspended phase and parked under
the reserved designator, issues the outright delete (owned pods) or the
create of the restored clone (unowned pods). -/
theorem resumeLoop_wb :
    ∀ (l : List Pod) (s : ExecState),
      s.faults = [] → s.streams = [] →
      (l.map (fun r => (r.metadata.name, r.metadata.nspace))).Nodup →
      (∀ r ∈ l, podPresent s.cluster r.metadata.name r.metadata.nspace = true) →
      (resumeLoop l s).1 = Except.ok () ∧
      (resumeLoop l s).2.faults = [] ∧
      (resumeLoop l s).2.streams = [] ∧
      (∃ δ, (resumeLoop l s).2.trace = s.trace ++ δ) ∧
      (∀ r ∈ l, r.status.phase = PodPhaseSuspended →
        r.spec.schedulerName = DebtSchedulerName →
        (r.metadata.ownerReferences ≠ [] →
          Act.podDelete r.metadata.name r.metadata.nspace ∈ (resumeLoop l s).2.trace) ∧
        (r.metadata.ownerReferences = [] →
          Act.podCreate (resumeClone r) ∈ (resumeLoop l s).2.trace))
  | [], s, hf, hs, _, _ => by
    refine ⟨rfl, by simp [resumeLoop, hf], by simp [resumeLoop, hs],
      ⟨[], by simp [resumeLoop]⟩, ?_⟩
    intro r hr
    cases hr
  | q :: rest, s, hf, hs, hnd, hpres => by
    rw [List.map_cons] at hnd
    have hndr : (rest.map (fun r => (r.metadata.name, r.metadata.nspace))).Nodup :=
      (List.nodup_cons.mp hnd).2
    have hqnotin : (q.metadata.name, q.metadata.nspace) ∉
        rest.map (fun r => (r.metadata.name, r.metadata.nspace)) :=
      (List.nodup_cons.mp hnd).1
    have hdist : ∀ r ∈ rest,
        ¬(r.metadata.name = q.metadata.name ∧
          r.metadata.nspace = q.metadata.nspace) := by
      intro r hr hc
      refine hqnotin (List.mem_map.mpr ⟨r, hr, ?_⟩)
      simp [hc.1, hc.2]
    cases hskip : (q.status.phase != PodPhaseSuspended
        || q.spec.schedulerName != DebtSchedulerName) with
    | true =>
      have hloop : resumeLoop (q :: rest) s = resumeLoop rest s := by
        simp only [resumeLoop]
        rw [if_pos hskip]
      have ih := resumeLoop_wb rest s hf hs hndr (fun r hr => hpres r (by simp [hr]))
      rw [hloop]
      refine ⟨ih.1, ih.2.1, ih.2.2.1, ih.2.2.2.1, ?_⟩
      intro r hr hph hsch
      rcases List.mem_cons.mp hr with hq1 | hq1
      · subst hq1
        exfalso
        simp [hph, hsch] at hskip
      · exact ih.2.2.2.2 r hq1 hph hsch
    | false =>
      rcases howners : q.metadata.ownerReferences with _ | ⟨o, os⟩
      · -- unowned: recreate via the protocol
        have hrw := recreatePod_wb q (resumeClone q) s hf hs (resumeClone_name q)
          (resumeClone_nspace q) (hpres q (by simp))
        have hloop : resumeLoop (q :: rest) s = resumeLoop rest
            { s with
              cluster := { s.cluster with
                pods := s.cluster.pods.filter (fun p =>
                  !(p.metadata.name == q.metadata.name &&
                    p.metadata.nspace == q.metadata.nspace)) ++ [resumeClone q] },
              trace := s.trace ++ [Act.watchOpen,
                Act.podDelete q.metadata.name q.metadata.nspace,
                Act.observed
                  { etype := WEventType.deleted, isPod := true,
                    name := q.metadata.name },
                Act.podCreate (resumeClone q), Act.watchStop] } := by
          simp only [resumeLoop]
          rw [if_neg (by simp [hskip]),
            if_neg (by simp [howners] :
              ¬q.metadata.ownerReferences.length > 0), hrw]
        have hpres1 : ∀ r ∈ rest,
            ((s.cluster.pods.filter (fun p =>
                !(p.metadata.name == q.metadata.name &&
                  p.metadata.nspace == q.metadata.nspace)) ++ [resumeClone q]).any
              (fun p => p.metadata.name == r.metadata.name &&
                p.metadata.nspace == r.metadata.nspace)) = true := by
          intro r hr
          have hb := hpres r (by simp [hr])
          simp only [podPresent] at hb
          rw [List.any_append, any_filter_other _ _ _ _ _ (hdist r hr), hb]
          simp
        have ih := resumeLoop_wb rest
          { s with
            cluster := { s.cluster with
              pods := s.cluster.pods.filter (fun p =>
                !(p.metadata.name == q.metadata.name &&
                  p.metadata.nspace == q.metadata.nspace)) ++ [resumeClone q] },
            trace := s.trace ++ [Act.watchOpen,
              Act.podDelete q.metadata.name q.metadata.nspace,
              Act.observed
                { etype := WEventType.deleted, isPod := true,
                  name := q.metadata.name },
              Act.podCreate (resumeClone q), Act.watchStop] }
          (by simp [hf]) (by simp [hs]) hndr hpres1
        rw [hloop]
        refine ⟨ih.1, ih.2.1, ih.2.2.1, ?_, ?_⟩
        · obtain ⟨δ, hδ⟩ := ih.2.2.2.1
          refine ⟨[Act.watchOpen,
            Act.podDelete q.metadata.name q.metadata.nspace,
            Act.observed
              { etype := WEventType.deleted, isPod := true,
                name := q.metadata.name },
            Act.podCreate (resumeClone q), Act.watchStop] ++ δ, ?_⟩
          rw [hδ]
          simp [List.append_assoc]
        · intro r hr hph hsch
          rcases List.mem_cons.mp hr with hq1 | hq1
          · subst hq1
            obtain ⟨δ, hδ⟩ := ih.2.2.2.1
            constructor
            · intro hne
              exact absurd howners hne
            · intro _
              rw [hδ]
              simp
          · exact ih.2.2.2.2 r hq1 hph hsch
      · -- owned: delete outright
        have hdel := deletePodApi_present q.metadata.name q.metadata.nspace s hf
          (hpres q (by simp))
        have hloop : resumeLoop (q :: rest) s = resumeLoop rest
            { s with
              cluster := { s.cluster with
                pods := s.cluster.pods.filter (fun p =>
                  !(p.metadata.name == q.metadata.name &&
                    p.metadata.nspace == q.metadata.nspace)) },
              trace := s.trace ++
                [Act.podDelete q.metadata.name q.metadata.nspace] } := by
          simp only [resumeLoop]
          rw [if_neg (by simp [hskip]),
            if_pos (by simp [howners] :
              q.metadata.ownerReferences.length > 0), hdel]
        have hpres1 : ∀ r ∈ rest,
            ((s.cluster.pods.filter (fun p =>
                !(p.metadata.name == q.metadata.name &&
                  p.metadata.nspace == q.metadata.nspace))).any
              (fun p => p.metadata.name == r.metadata.name &&
                p.metadata.nspace == r.metadata.nspace)) = true := by
          intro r hr
          have hb := hpres r (by simp [hr])
          simp only [podPresent] at hb
          rw [any_filter_other _ _ _ _ _ (hdist r hr)]
          exact hb
        have ih := resumeLoop_wb rest
          { s with
            cluster := { s.cluster with
              pods := s.cluster.pods.filter (fun p =>
                !(p.metadata.name == q.metadata.name &&
                  p.metadata.nspace == q.metadata.nspace)) },
            trace := s.trace ++
              [Act.podDelete q.metadata.name q.metadata.nspace] }
          (by simp [hf]) (by simp [hs]) hndr hpres1
        rw [hloop]
        refine ⟨ih.1, ih.2.1, ih.2.2.1, ?_, ?_⟩
        · obtain ⟨δ, hδ⟩ := ih.2.2.2.1
          refine ⟨[Act.podDelete q.metadata.name q.metadata.nspace] ++ δ, ?_⟩
          rw [hδ]
          simp [List.append_assoc]
        · intro r hr hph hsch
          rcases List.mem_cons.mp hr with hq1 | hq1
          · subst hq1
            obtain ⟨δ, hδ⟩ := ih.2.2.2.1
            constructor
            · intro _
              rw [hδ]
              simp
            · intro hnil
              rw [howners] at hnil
              cases hnil
          · exact ih.2.2.2.2 r hq1 hph hsch

/-- C4 counterexample: a pod whose scheduler designator equals the
controller's reserved designator but whose phase is not the suspended
phase is skipped entirely by `resumePod` — neither deleted nor recreated,
its designator and annotation untouched — refuting the claim that the
resume pipeline acts on every pod carrying the reserved designator. -/
theorem C4_counterexample :
    podParkedRunning.spec.schedulerName = DebtSchedulerName ∧
    podParkedRunning.metadata.ownerReferences = [] ∧
    (resumePod "ns-user" c4S).1 = Except.ok () ∧
    (resumePod "ns-user" c4S).2.cluster.pods = [podParkedRunning] ∧
    (resumePod "ns-user" c4S).2.trace = [Act.podList "ns-user"] := by
  exact ⟨rfl, rfl, rfl, rfl, rfl⟩

/-- C4 amended: the resume pipeline acts on every pod in the namespace
whose scheduler designator equals the reserved designator *and whose
lifecycle phase is the suspended phase*: owned pods are deleted outright;
unmanaged pods are recreated from a clone whose designator is restored
from the previous-scheduler annotation (or set to `""` when absent) with
that annotation removed. -/
theorem C4_resume_scope (nspace : String) (s : ExecState) (p : Pod)
    (hf : s.faults = []) (hs : s.streams = [])
    (hnd : ((s.cluster.pods.filter (fun q => q.metadata.nspace == nspace)).map
        (fun q => (q.metadata.name, q.metadata.nspace))).Nodup)
    (hp : p ∈ s.cluster.pods.filter (fun q => q.metadata.nspace == nspace))
    (hphase : p.status.phase = PodPhaseSuspended)
    (hsched : p.spec.schedulerName = DebtSchedulerName) :
    (resumePod nspace s).1 = Except.ok () ∧
    (p.metadata.ownerReferences ≠ [] →
      Act.podDelete p.metadata.name p.metadata.nspace ∈ (resumePod nspace s).2.trace) ∧
    (p.metadata.ownerReferences = [] →
      Act.podCreate (resumeClone p) ∈ (resumePod nspace s).2.trace ∧
      (resumeClone p).spec.schedulerName =
        (lookupA p.metadata.annots PreviousSchedulerName).getD "" ∧
      lookupA (resumeClone p).metadata.annots PreviousSchedulerName = none) := by
  have hlist : listPods nspace s =
      (Except.ok (s.cluster.pods.filter (fun q => q.metadata.nspace == nspace)),
        logAct (Act.podList nspace) s) := by
    simp [listPods, popFault, logAct, hf]
  have hloop : resumePod nspace s =
      resumeLoop (s.cluster.pods.filter (fun q => q.metadata.nspace == nspace))
        (logAct (Act.podList nspace) s) := by
    simp [resumePod, hlist]
  have hpres : ∀ r ∈ s.cluster.pods.filter (fun q => q.metadata.nspace == nspace),
      podPresent (logAct (Act.podList nspace) s).cluster
        r.metadata.name r.metadata.nspace = true := by
    intro r hr
    exact podPresent_of_mem _ r (List.mem_of_mem_filter hr)
  have hwb := resumeLoop_wb
    (s.cluster.pods.filter (fun q => q.metadata.nspace == nspace))
    (logAct (Act.podList nspace) s) (by simp [logAct, hf]) (by simp [logAct, hs])
    hnd hpres
  have hmain := hwb.2.2.2.2 p hp hphase hsched
  rw [hloop]
  refine ⟨hwb.1, hmain.1, ?_⟩
  intro hnil
  exact ⟨hmain.2 hnil, resumeClone_sched_restored p,
    resumeClone_prev_absent p⟩

/-- Witness for the amended C4 at a concrete input: one unmanaged parked
pod in the suspended phase. -/
theorem C4_resume_scope_witness :
    (resumePod "ns-user" c4W).1 = Except.ok () ∧
    (podParkedSuspended.metadata.ownerReferences ≠ [] →
      Act.podDelete podParkedSuspended.metadata.name
        podParkedSuspended.metadata.nspace ∈ (resumePod "ns-user" c4W).2.trace) ∧
    (podParkedSuspended.metadata.ownerReferences = [] →
      Act.podCreate (resumeClone podParkedSuspended) ∈
        (resumePod "ns-user" c4W).2.trace ∧
      (resumeClone podParkedSuspended).spec.schedulerName =
        (lookupA podParkedSuspended.metadata.annots PreviousSchedulerName).getD "" ∧
      lookupA (resumeClone podParkedSuspended).metadata.annots
        PreviousSchedulerName = none) :=
  C4_resume_scope "ns-user" c4W podParkedSuspended rfl rfl (by decide)
    (by decide) rfl rfl

theorem createOrUpdateQuota_trace (q : ResourceQuota) (s : ExecState) :
    ((createOrUpdateQuota q s).2).trace = s.trace ++ [Act.quotaWrite q] := by
  unfold createOrUpdateQuota
  cases h : s.faults with
  | nil => simp [popFault, logAct, h]; split <;> simp
  | cons f rest =>
    cases f <;> simp [popFault, logAct, h]
    split <;> simp

/-- C5: the suspend pipeline is exactly the sequence park-unmanaged-pods
(`suspendOrphanPod`), create-zero-limit-quota (`limitResourceQuotaCreate`),
delete-managed-pods (`deleteControlledPod`), and the first stage returning
an error aborts the remaining stages, that error being returned to the
caller unchanged. -/
theorem C5_suspend_pipeline_order (nspace : String) (s : ExecState) :
    (∀ e s1, suspendOrphanPod nspace s = (Except.error e, s1) →
        SuspendUserResource nspace s = (Except.error e, s1)) ∧
    (∀ s1, suspendOrphanPod nspace s = (Except.ok (), s1) →
      (∀ e s2, limitResourceQuotaCreate nspace s1 = (Except.error e, s2) →
          SuspendUserResource nspace s = (Except.error e, s2)) ∧
      (∀ s2, limitResourceQuotaCreate nspace s1 = (Except.ok (), s2) →
          s2.trace = s1.trace ++ [Act.quotaWrite (GetLimit0ResourceQuota nspace)] ∧
          SuspendUserResource nspace s = deleteControlledPod nspace s2)) := by
  refine ⟨?_, ?_⟩
  · intro e s1 h
    simp [SuspendUserResource, runPipeline, h]
  · intro s1 h
    refine ⟨?_, ?_⟩
    · intro e s2 h2
      simp [SuspendUserResource, runPipeline, h, h2]
    · intro s2 h2
      refine ⟨?_, ?_⟩
      · have ht := createOrUpdateQuota_trace (GetLimit0ResourceQuota nspace) s1
        have h2x : createOrUpdateQuota (GetLimit0ResourceQuota nspace) s1 =
            (Except.ok (), s2) := h2
        rw [h2x] at ht
        simpa using ht
      · simp only [SuspendUserResource, runPipeline, h, h2]
        rcases hd : deleteControlledPod nspace s2 with ⟨rd, s3⟩
        cases rd with
        | error e => rfl
        | ok v => cases v; rfl

/-- Witness for C5: a fault injected on the very first API call makes the
first stage fail; the pipeline returns that error and stops. -/
theorem C5_witness :
    SuspendUserResource "ns-user" c5S =
      (Except.error ApiError.transient, (suspendOrphanPod "ns-user" c5S).2) :=
  (C5_suspend_pipeline_order "ns-user" c5S).1 ApiError.transient
    (suspendOrphanPod "ns-user" c5S).2 (by rfl)

theorem popFault_cluster (s : ExecState) : (popFault s).2.cluster = s.cluster := by
  cases h : s.faults <;> simp [popFault, h]

theorem popStream_cluster (t : String) (s : ExecState) :
    (popStream t s).2.cluster = s.cluster := by
  cases h : s.streams <;> simp [popStream, h]

theorem listPods_nsAnnots (nspace : String) (s : ExecState) :
    ((listPods nspace s).2).cluster.nsAnnots = s.cluster.nsAnnots := by
  unfold listPods
  cases h : s.faults with
  | nil => simp [popFault, logAct, h]
  | cons f rest => cases f <;> simp [popFault, logAct, h]

theorem deletePodApi_nsAnnots (n ns : String) (s : ExecState) :
    ((deletePodApi n ns s).2).cluster.nsAnnots = s.cluster.nsAnnots := by
  unfold deletePodApi
  cases h : s.faults with
  | nil => simp [popFault, logAct, h]; split <;> simp
  | cons f rest =>
    cases f <;> simp [popFault, logAct, h]
    split <;> simp

theorem createPodApi_nsAnnots (p : Pod) (s : ExecState) :
    ((createPodApi p s).2).cluster.nsAnnots = s.cluster.nsAnnots := by
  unfold createPodApi
  cases h : s.faults with
  | nil => simp [popFault, logAct, h]; split <;> simp
  | cons f rest =>
    cases f <;> simp [popFault, logAct, h]
    split <;> simp

theorem deleteQuotaApi_nsAnnots (n ns : String) (s : ExecState) :
    ((deleteQuotaApi n ns s).2).cluster.nsAnnots = s.cluster.nsAnnots := by
  unfold deleteQuotaApi
  cases h : s.faults with
  | nil => simp [popFault, logAct, h]; split <;> simp
  | cons f rest =>
    cases f <;> simp [popFault, logAct, h]
    split <;> simp

theorem recreateWait_nsAnnots (t : String) (np : Pod) :
    ∀ (evs : List WEvent) (s : ExecState),
      ((recreateWait t np evs s).2).cluster.nsAnnots = s.cluster.nsAnnots
  | [], _ => rfl
  | e :: rest, s => by
    cases h : matchesDeletion t e with
    | true =>
      simp only [recreateWait]
      rw [if_pos h]
      rcases hc : createPodApi np (logAct (Act.observed e) s) with ⟨rc, s2⟩
      have h2 := createPodApi_nsAnnots np (logAct (Act.observed e) s)
      rw [hc] at h2
      simp [logAct] at h2
      cases rc <;> simpa [logAct] using h2
    | false =>
      simp only [recreateWait]
      rw [if_neg (by simp [h]), recreateWait_nsAnnots t np rest (logAct (Act.observed e) s)]
      rfl

theorem recreatePod_nsAnnots (oldPod newPod : Pod) (s : ExecState) :
    ((recreatePod oldPod newPod s).2).cluster.nsAnnots = s.cluster.nsAnnots := by
  rcases hpf : popFault (logAct Act.watchOpen s) with ⟨f, s2⟩
  have hs2 : s2.cluster = s.cluster := by
    have h := popFault_cluster (logAct Act.watchOpen s)
    rw [hpf] at h
    simpa [logAct] using h
  cases f with
  | true => simp [recreatePod, hpf, hs2]
  | false =>
    rcases hps : popStream oldPod.metadata.name s2 with ⟨evs, s3⟩
    have hs3 : s3.cluster = s2.cluster := by
      have h := popStream_cluster oldPod.metadata.name s2
      rw [hps] at h
      exact h
    rcases hdel : deletePodApi oldPod.metadata.name oldPod.metadata.nspace s3
      with ⟨rd, s4⟩
    have hs4 : s4.cluster.nsAnnots = s3.cluster.nsAnnots := by
      have h := deletePodApi_nsAnnots oldPod.metadata.name oldPod.metadata.nspace s3
      rw [hdel] at h
      simpa using h
    cases rd with
    | error e => simp [recreatePod, hpf, hps, hdel, hs4, hs3, hs2]
    | ok v =>
      simp only [recreatePod, hpf, hps, hdel]
      rw [if_neg (by simp : ¬false = true)]
      rw [recreateWait_nsAnnots]
      rw [hs4, hs3, hs2]

theorem resumeLoop_nsAnnots :
    ∀ (l : List Pod) (s : ExecState),
      ((resumeLoop l s).2).cluster.nsAnnots = s.cluster.nsAnnots
  | [], _ => rfl
  | q :: rest, s => by
    simp only [resumeLoop]
    by_cases h1 : (q.status.phase != PodPhaseSuspended ||
        q.spec.schedulerName != DebtSchedulerName) = true
    · rw [if_pos h1]
      exact resumeLoop_nsAnnots rest s
    · rw [if_neg h1]
      by_cases h2 : q.metadata.ownerReferences.length > 0
      · rw [if_pos h2]
        rcases hdel : deletePodApi q.metadata.name q.metadata.nspace s with ⟨rd, s1⟩
        have hd := deletePodApi_nsAnnots q.metadata.name q.metadata.nspace s
        rw [hdel] at hd
        simp at hd
        cases rd with
        | error e => simpa using hd
        | ok v =>
          simp only []
          rw [resumeLoop_nsAnnots rest s1]
          exact hd
      · rw [if_neg h2]
        rcases hrc : recreatePod q (resumeClone q) s with ⟨rc, s1⟩
        have hr := recreatePod_nsAnnots q (resumeClone q) s
        rw [hrc] at hr
        simp at hr
        cases rc with
        | error e => simpa using hr
        | ok v =>
          simp only []
          rw [resumeLoop_nsAnnots rest s1]
          exact hr

theorem resumePod_nsAnnots (nspace : String) (s : ExecState) :
    ((resumePod nspace s).2).cluster.nsAnnots = s.cluster.nsAnnots := by
  unfold resumePod
  rcases hl : listPods nspace s with ⟨rl, s1⟩
  have h := listPods_nsAnnots nspace s
  rw [hl] at h
  simp at h
  cases rl with
  | error e => simpa using h
  | ok pods =>
    simp only []
    rw [resumeLoop_nsAnnots pods s1]
    exact h

theorem limitResourceQuotaDelete_nsAnnots (nspace : String) (s : ExecState) :
    ((limitResourceQuotaDelete nspace s).2).cluster.nsAnnots = s.cluster.nsAnnots := by
  unfold limitResourceQuotaDelete
  rcases hd : deleteQuotaApi (GetLimit0ResourceQuota nspace).name nspace s with ⟨r, s1⟩
  have h := deleteQuotaApi_nsAnnots (GetLimit0ResourceQuota nspace).name nspace s
  rw [hd] at h
  simpa using h

theorem ResumeUserResource_nsAnnots (nspace : String) (s : ExecState) :
    ((ResumeUserResource nspace s).2).cluster.nsAnnots = s.cluster.nsAnnots := by
  simp only [ResumeUserResource, runPipeline]
  rcases h1 : limitResourceQuotaDelete nspace s with ⟨r1, s1⟩
  have ha := limitResourceQuotaDelete_nsAnnots nspace s
  rw [h1] at ha
  simp at ha
  cases r1 with
  | error e => simpa using ha
  | ok v =>
    simp only []
    rcases h2 : resumePod nspace s1 with ⟨r2, s2⟩
    have hb := resumePod_nsAnnots nspace s1
    rw [h2] at hb
    simp at hb
    cases r2 with
    | error e => simpa using hb.trans ha
    | ok v2 => simpa using hb.trans ha

theorem nsGetApi_cluster (nspace : String) (s : ExecState) :
    ((nsGetApi nspace s).2).cluster = s.cluster := by
  unfold nsGetApi
  cases h : s.faults with
  | nil => simp [popFault, logAct, h]
  | cons f rest => cases f <;> simp [popFault, logAct, h]

/-- C6: when `Reconcile` observes `ResumeRequested`, the Debt Status
annotation is written to `Normal` exactly when the resume pipeline
(quota delete, then `resumePod`) completed without error: on pipeline
failure `Reconcile` returns that error unchanged and the namespace's
annotations are untouched; on pipeline success `Reconcile` is exactly the
status update, which (absent an injected fault) succeeds and leaves the
annotation at `Normal`. -/
theorem C6_resume_success_writes_normal (nspace : String) (s s1 : ExecState)
    (hget : nsGetApi nspace s = (Except.ok (), s1))
    (hstatus : lookupA s1.cluster.nsAnnots DebtNamespaceAnnoStatusKey =
      some ResumeDebtNamespaceAnnoStatus) :
    (∀ e s2, ResumeUserResource nspace s1 = (Except.error e, s2) →
      Reconcile nspace s = (Except.error e, s2) ∧
      s2.cluster.nsAnnots = s.cluster.nsAnnots) ∧
    (∀ s2, ResumeUserResource nspace s1 = (Except.ok (), s2) →
      Reconcile nspace s = updateNsStatus NormalDebtNamespaceAnnoStatus s2 ∧
      (s2.faults = [] →
        (Reconcile nspace s).1 = Except.ok () ∧
        lookupA (Reconcile nspace s).2.cluster.nsAnnots
          DebtNamespaceAnnoStatusKey = some NormalDebtNamespaceAnnoStatus)) := by
  have hcl : s1.cluster = s.cluster := by
    have h := nsGetApi_cluster nspace s
    rw [hget] at h
    simpa using h
  have hrec : Reconcile nspace s =
      (match ResumeUserResource nspace s1 with
       | (Except.error e, s2) => (Except.error e, s2)
       | (Except.ok _, s2) => updateNsStatus NormalDebtNamespaceAnnoStatus s2) := by
    simp [Reconcile, hget, hstatus, ResumeDebtNamespaceAnnoStatus,
      SuspendDebtNamespaceAnnoStatus]
  refine ⟨?_, ?_⟩
  · intro e s2 h
    rw [h] at hrec
    simp at hrec
    have ha := ResumeUserResource_nsAnnots nspace s1
    rw [h] at ha
    simp at ha
    exact ⟨hrec, by rw [ha, hcl]⟩
  · intro s2 h
    rw [h] at hrec
    simp at hrec
    refine ⟨hrec, ?_⟩
    intro hf2
    rw [hrec]
    exact ⟨by simp [updateNsStatus, logAct, popFault, hf2],
      by simp [updateNsStatus, logAct, popFault, hf2, lookupA_insertA_self]⟩

/-- Witness for C6 at a concrete input: an empty namespace with the
resume marker; the pipeline succeeds and `Reconcile` is exactly the
write of `Normal`. -/
theorem C6_witness :
    Reconcile "ns-user" c6S = updateNsStatus NormalDebtNamespaceAnnoStatus
      ((ResumeUserResource "ns-user" (nsGetApi "ns-user" c6S).2).2) := by
  have h := C6_resume_success_writes_normal "ns-user" c6S
    (nsGetApi "ns-user" c6S).2 rfl (by decide)
  exact (h.2 ((ResumeUserResource "ns-user" (nsGetApi "ns-user" c6S).2).2) rfl).1

theorem createOrUpdateQuota_present (q : ResourceQuota) (s : ExecState)
    (hf : s.faults = [])
    (hq : quotaPresent s.cluster q.name q.nspace = true) :
    createOrUpdateQuota q s = (Except.ok (), logAct (Act.quotaWrite q) s) := by
  have hpf : popFault (logAct (Act.quotaWrite q) s) =
      (false, logAct (Act.quotaWrite q) s) := by
    simp [popFault, logAct, hf]
  simp only [createOrUpdateQuota, hpf]
  rw [if_neg (by simp : ¬false = true)]
  rw [if_pos (show quotaPresent (logAct (Act.quotaWrite q) s).cluster
    q.name q.nspace = true from hq)]

theorem createOrUpdateQuota_absent (q : ResourceQuota) (s : ExecState)
    (hf : s.faults = [])
    (hq : quotaPresent s.cluster q.name q.nspace = false) :
    createOrUpdateQuota q s =
      (Except.ok (),
        { s with
          cluster := { s.cluster with quotas := s.cluster.quotas ++ [q] },
          trace := s.trace ++ [Act.quotaWrite q] }) := by
  have hpf : popFault (logAct (Act.quotaWrite q) s) =
      (false, logAct (Act.quotaWrite q) s) := by
    simp [popFault, logAct, hf]
  simp only [createOrUpdateQuota, hpf]
  rw [if_neg (by simp : ¬false = true)]
  rw [if_neg (show ¬quotaPresent (logAct (Act.quotaWrite q) s).cluster
    q.name q.nspace = true from by rw [show quotaPresent
      (logAct (Act.quotaWrite q) s).cluster q.name q.nspace = false from hq]; simp)]
  simp [logAct]

theorem deleteQuotaApi_absent (n ns : String) (s : ExecState)
    (hf : s.faults = []) (hq : quotaPresent s.cluster n ns = false) :
    deleteQuotaApi n ns s =
      (Except.error ApiError.notFound, logAct (Act.quotaDelete n ns) s) := by
  have hpf : popFault (logAct (Act.quotaDelete n ns) s) =
      (false, logAct (Act.quotaDelete n ns) s) := by
    simp [popFault, logAct, hf]
  simp only [deleteQuotaApi, hpf]
  rw [if_neg (by simp : ¬false = true)]
  rw [if_neg (show ¬quotaPresent (logAct (Act.quotaDelete n ns) s).cluster
    n ns = true from by rw [show quotaPresent
      (logAct (Act.quotaDelete n ns) s).cluster n ns = false from hq]; simp)]

/-- C7: the Quota Gate is idempotent.  Block (`limitResourceQuotaCreate`)
twice in a row: both calls succeed and the quota records after the second
call equal those after the first.  Unblock (`limitResourceQuotaDelete`)
with the record already absent: the not-found condition on delete is
swallowed and the call succeeds. -/
theorem C7_quota_gate_idempotent (nspace : String) (s : ExecState)
    (hf : s.faults = []) :
    (limitResourceQuotaCreate nspace s).1 = Except.ok () ∧
    (limitResourceQuotaCreate nspace
        (limitResourceQuotaCreate nspace s).2).1 = Except.ok () ∧
    (limitResourceQuotaCreate nspace
        (limitResourceQuotaCreate nspace s).2).2.cluster.quotas =
      (limitResourceQuotaCreate nspace s).2.cluster.quotas ∧
    (quotaPresent s.cluster "debt-limit0" nspace = false →
      (limitResourceQuotaDelete nspace s).1 = Except.ok ()) := by
  cases hq : quotaPresent s.cluster "debt-limit0" nspace with
  | true =>
    have h1 : limitResourceQuotaCreate nspace s =
        (Except.ok (), logAct (Act.quotaWrite (GetLimit0ResourceQuota nspace)) s) :=
      createOrUpdateQuota_present (GetLimit0ResourceQuota nspace) s hf hq
    have h2 : limitResourceQuotaCreate nspace
        (logAct (Act.quotaWrite (GetLimit0ResourceQuota nspace)) s) =
        (Except.ok (), logAct (Act.quotaWrite (GetLimit0ResourceQuota nspace))
          (logAct (Act.quotaWrite (GetLimit0ResourceQuota nspace)) s)) :=
      createOrUpdateQuota_present (GetLimit0ResourceQuota nspace) _ hf hq
    refine ⟨by rw [h1], ?_, ?_, ?_⟩
    · rw [h1]
      dsimp only
      rw [h2]
    · rw [h1]
      dsimp only
      rw [h2]
      rfl
    · intro hcontra
      exact absurd hcontra (by decide)
  | false =>
    have h1 : limitResourceQuotaCreate nspace s =
        (Except.ok (),
          { s with
            cluster := { s.cluster with
              quotas := s.cluster.quotas ++ [GetLimit0ResourceQuota nspace] },
            trace := s.trace ++
              [Act.quotaWrite (GetLimit0ResourceQuota nspace)] }) :=
      createOrUpdateQuota_absent (GetLimit0ResourceQuota nspace) s hf hq
    have hq2 : quotaPresent
        { s.cluster with
          quotas := s.cluster.quotas ++ [GetLimit0ResourceQuota nspace] }
        "debt-limit0" nspace = true := by
      simp [quotaPresent, List.any_append, GetLimit0ResourceQuota]
    have h2 : limitResourceQuotaCreate nspace
        { s with
          cluster := { s.cluster with
            quotas := s.cluster.quotas ++ [GetLimit0ResourceQuota nspace] },
          trace := s.trace ++
            [Act.quotaWrite (GetLimit0ResourceQuota nspace)] } =
        (Except.ok (), logAct (Act.quotaWrite (GetLimit0ResourceQuota nspace))
          { s with
            cluster := { s.cluster with
              quotas := s.cluster.quotas ++ [GetLimit0ResourceQuota nspace] },
            trace := s.trace ++
              [Act.quotaWrite (GetLimit0ResourceQuota nspace)] }) :=
      createOrUpdateQuota_present (GetLimit0ResourceQuota nspace) _ hf hq2
    have hdel : limitResourceQuotaDelete nspace s =
        (Except.ok (), logAct (Act.quotaDelete "debt-limit0" nspace) s) := by
      have hd := deleteQuotaApi_absent "debt-limit0" nspace s hf hq
      simp only [limitResourceQuotaDelete]
      rw [show deleteQuotaApi (GetLimit0ResourceQuota nspace).name nspace s =
        (Except.error ApiError.notFound,
          logAct (Act.quotaDelete "debt-limit0" nspace) s) from hd]
      rfl
    refine ⟨by rw [h1], ?_, ?_, fun _ => by rw [hdel]⟩
    · rw [h1]
      dsimp only
      rw [h2]
    · rw [h1]
      dsimp only
      rw [h2]
      rfl

/-- Witness for C7: the empty cluster — the record is absent, and Unblock
succeeds on it. -/
theorem C7_witness :
    (limitResourceQuotaDelete "ns-user" c7S).1 = Except.ok () :=
  (C7_quota_gate_idempotent "ns-user" c7S rfl).2.2.2 rfl

/-- C8: on an unrecognized Debt Status value (none of `Normal`,
`SuspendRequested`, `ResumeRequested`), `Reconcile` writes the annotation
back to `Normal` and performs no pod or quota operation: the pods and
quotas are unchanged, only that one annotation key changes, and the trace
records exactly the namespace read and the namespace update. -/
theorem C8_unrecognized_status_self_heals (nspace : String) (s : ExecState)
    (st : String)
    (hf : s.faults = [])
    (hst : lookupA s.cluster.nsAnnots DebtNamespaceAnnoStatusKey = some st)
    (h1 : st ≠ SuspendDebtNamespaceAnnoStatus)
    (h2 : st ≠ ResumeDebtNamespaceAnnoStatus)
    (h3 : st ≠ NormalDebtNamespaceAnnoStatus) :
    (Reconcile nspace s).1 = Except.ok () ∧
    (Reconcile nspace s).2.cluster.pods = s.cluster.pods ∧
    (Reconcile nspace s).2.cluster.quotas = s.cluster.quotas ∧
    lookupA (Reconcile nspace s).2.cluster.nsAnnots DebtNamespaceAnnoStatusKey =
      some NormalDebtNamespaceAnnoStatus ∧
    (∀ k, k ≠ DebtNamespaceAnnoStatusKey →
      lookupA (Reconcile nspace s).2.cluster.nsAnnots k =
        lookupA s.cluster.nsAnnots k) ∧
    (Reconcile nspace s).2.trace = s.trace ++ [Act.nsGet nspace,
      Act.nsUpdate (insertA s.cluster.nsAnnots DebtNamespaceAnnoStatusKey
        NormalDebtNamespaceAnnoStatus)] := by
  have hb1 : (st == SuspendDebtNamespaceAnnoStatus) = false := by
    simp [h1]
  have hb2 : (st == ResumeDebtNamespaceAnnoStatus) = false := by
    simp [h2]
  have hb3 : (st == NormalDebtNamespaceAnnoStatus) = false := by
    simp [h3]
  have hrec : Reconcile nspace s =
      updateNsStatus NormalDebtNamespaceAnnoStatus (logAct (Act.nsGet nspace) s) := by
    simp [Reconcile, nsGetApi, popFault, logAct, hf, hst, hb1, hb2, hb3]
  have hupd : updateNsStatus NormalDebtNamespaceAnnoStatus
      (logAct (Act.nsGet nspace) s) =
      (Except.ok (),
        { s with
          cluster := { s.cluster with
            nsAnnots := insertA s.cluster.nsAnnots DebtNamespaceAnnoStatusKey
              NormalDebtNamespaceAnnoStatus },
          trace := s.trace ++ [Act.nsGet nspace,
            Act.nsUpdate (insertA s.cluster.nsAnnots DebtNamespaceAnnoStatusKey
              NormalDebtNamespaceAnnoStatus)] }) := by
    simp [updateNsStatus, logAct, popFault, hf]
  rw [hrec, hupd]
  refine ⟨rfl, rfl, rfl, by simp [lookupA_insertA_self], ?_, rfl⟩
  intro k hk
  exact lookupA_insertA_ne s.cluster.nsAnnots DebtNamespaceAnnoStatusKey
    NormalDebtNamespaceAnnoStatus k hk

/-- Witness for C8 at a concrete input: the status marker `"garbage"`
self-heals to `Normal`. -/
theorem C8_witness :
    lookupA (Reconcile "ns-user" c8S).2.cluster.nsAnnots
      DebtNamespaceAnnoStatusKey = some NormalDebtNamespaceAnnoStatus :=
  (C8_unrecognized_status_self_heals "ns-user" c8S "garbage" rfl rfl
    (by decide) (by decide) (by decide)).2.2.2.1
